import Mathlib

/-!
Verification of the evaluation script `src/london_baseline.py`.

The script under `src/` implements the model path: for each line of the
evaluation corpus it extracts column 0 (`line.split('\t')[0]`), appends the
sentinel character '⁇', encodes it through the tokenizer's `stoi` table,
calls `utils.sample(gpt_model, x, 32, sample=False)[0]`, decodes the result
through `itos`, splits the decoded text on '⁇' and takes index 1 as the
prediction, writing each prediction (newline-terminated) to the output file
opened with `open(args.outputs_path, 'w')`; after the loop, still inside the
`with` block, it calls the external scorer `evaluate_places` and finally
prints the accuracy guarded by `if total > 0`.

Strings are embedded as lists of characters; a raised Python exception is
embedded as `none` in `Option`; the external model/tokenizer/sampler and
the external scoring helper are parameters (the scorer and the constant
"London" baseline variant, which are not part of the source tree, are
modelled from the specification, as marked on their doc comments).
-/

namespace London

/-- Strings of the script are embedded as lists of characters. -/
abbrev Str := List Char

/-- Python's `str.split(sep)` for a one-character separator: the list of
segments between occurrences of `sep`; always non-empty, and a line with no
separator yields the single segment equal to the whole line. -/
def pySplit (sep : Char) : Str → List Str
  | [] => [[]]
  | c :: cs =>
    match pySplit sep cs with
    | [] => if c = sep then [[], []] else [[c]]
    | s :: ss => if c = sep then [] :: s :: ss else (c :: s) :: ss

/-- The text before the first tab of a line (what `line.split('\t')[0]`
evaluates to). -/
def col0 : Str → Str
  | [] => []
  | c :: cs => if c = '\t' then [] else c :: col0 cs

/-- A Python list comprehension applying a fallible lookup to every element,
left to right; the first failed lookup raises (returns `none`). -/
def mapOpt (f : α → Option β) : List α → Option (List β)
  | [] => some []
  | a :: as =>
    match f a with
    | none => none
    | some b =>
      match mapOpt f as with
      | none => none
      | some bs => some (b :: bs)

/-- The per-line pipeline of the script (source lines 11-16): split the line
on tab and take index 0, append the sentinel '⁇', encode every character
through `stoi`, run the external sampler requesting 32 tokens with
`sample=False`, decode every produced token through `itos`, split the decoded
text on '⁇' and take index 1.  `none` models an uncaught exception. -/
def processLine (stoi : Char → Option Nat) (itos : Nat → Option Char)
    (sample : List Nat → Nat → Bool → List Nat) (line : Str) : Option Str :=
  match (pySplit '\t' line).get? 0 with
  | none => none
  | some x0 =>
    match mapOpt stoi (x0 ++ ['⁇']) with
    | none => none
    | some ix =>
      match mapOpt itos (sample ix 32 false) with
      | none => none
      | some completion => (pySplit '⁇' completion).get? 1

/-- Rendering of the spec's description of the per-line generation pipeline:
take column 0 (the text before the first tab), append a single sentinel
delimiter character, encode character-by-character through `stoi`, invoke the
sampler requesting up to 32 tokens with greedy (non-random) decoding, decode
through `itos`, split the decoded text on the sentinel and take the segment
at index 1 (immediately after the input segment). -/
def processLineSpec (stoi : Char → Option Nat) (itos : Nat → Option Char)
    (sample : List Nat → Nat → Bool → List Nat) (line : Str) : Option Str :=
  match mapOpt stoi (col0 line ++ ['⁇']) with
  | none => none
  | some ix =>
    match mapOpt itos (sample ix 32 false) with
    | none => none
    | some completion => (pySplit '⁇' completion).get? 1

/-- Number of lines whose second tab-separated field is exactly "London". -/
def countLondon : List Str → Nat
  | [] => 0
  | l :: ls => countLondon ls + (if (pySplit '\t' l).get? 1 = some ("London".data) then 1 else 0)

/-- Modelled from the spec: the constant-"London" baseline variant of the
script is not part of the source tree (the file under `src/` contains the
model path); following the spec's words, for every line it splits on tab and
takes the second field as `true_label` (a missing second field raises,
modelled as `none`), increments `total` per record and increments `correct`
when the predicted label, always the literal string "London", equals
`true_label` by exact string equality. -/
def run_baseline : List Str → Option (Nat × Nat)
  | [] => some (0, 0)
  | l :: ls =>
    match (pySplit '\t' l).get? 1 with
    | none => none
    | some t =>
      match run_baseline ls with
      | none => none
      | some (total, correct) =>
        some (total + 1, correct + (if ("London".data : Str) = t then 1 else 0))

/-- Number of (line, prediction) pairs where the prediction equals the line's
second tab-separated field exactly. -/
def countCorrect : List (Str × Str) → Nat
  | [] => 0
  | lp :: rest => countCorrect rest + (if (pySplit '\t' lp.1).get? 1 = some lp.2 then 1 else 0)

/-- Modelled from the spec: the external scoring helper `evaluate_places` is
not part of the source tree; per its black-box contract it receives the
corpus and the ordered predictions and returns a count of lines and a count
of records whose prediction equals the true label (the second tab-separated
field) exactly. -/
def evaluate_places (lines preds : List Str) : Nat × Nat :=
  (lines.length, countCorrect (lines.zip preds))

/-- Observable events of one run of the script: opening the output file,
reading a corpus line, writing a prediction, calling the scorer, the output
file being closed, and the final accuracy print. -/
inductive Ev where
  | openOut : Ev
  | readLine : Str → Ev
  | writeOut : Str → Ev
  | score : Ev
  | closeOut : Ev
  | print : Nat → Nat → Ev
  deriving DecidableEq

/-- Events produced by the body of the for-loop. -/
def loopEv : Ev → Bool
  | Ev.readLine _ => true
  | Ev.writeOut _ => true
  | _ => false

/-- Events produced inside the `with` block: the loop body and the scorer
call. -/
def loopOrScoreEv : Ev → Bool
  | Ev.readLine _ => true
  | Ev.writeOut _ => true
  | Ev.score => true
  | _ => false

/-- The final print event. -/
def isPrintEv : Ev → Bool
  | Ev.print _ _ => true
  | _ => false

/-- True away from the file-open event. -/
def notOpen : Ev → Bool
  | Ev.openOut => false
  | _ => true

/-- True away from the file-close event. -/
def notClose : Ev → Bool
  | Ev.closeOut => false
  | _ => true

/-- Drop events while the predicate holds. -/
def dropU (p : Ev → Bool) : List Ev → List Ev
  | [] => []
  | e :: es => if p e then dropU p es else e :: es

/-- Take events while the predicate holds. -/
def takeU (p : Ev → Bool) : List Ev → List Ev
  | [] => []
  | e :: es => if p e then e :: takeU p es else []

/-- The events that happen strictly between the opening of the output file
and its closing, i.e. while the file handle is open. -/
def betweenOpenClose (tr : List Ev) : List Ev :=
  takeU notClose ((dropU notOpen tr).drop 1)

/-- The events that happen strictly after the output file is closed. -/
def afterClose (tr : List Ev) : List Ev :=
  (dropU notClose tr).drop 1

/-- Result of the for-loop (source lines 10-18): the events it emits, the
characters it appends to the output file, and the accumulated predictions
(`none` when a line raised, terminating the loop early). -/
structure LoopOut where
  evs : List Ev
  written : Str
  preds : Option (List Str)

/-- The for-loop of the script: process each line in order; a raised
exception aborts the loop (later lines are not read, nothing more is
written). -/
def loopRun (stoi : Char → Option Nat) (itos : Nat → Option Char)
    (sample : List Nat → Nat → Bool → List Nat) : List Str → LoopOut
  | [] => ⟨[], [], some []⟩
  | l :: ls =>
    match processLine stoi itos sample l with
    | none => ⟨[Ev.readLine l], [], none⟩
    | some p =>
      let r := loopRun stoi itos sample ls
      ⟨Ev.readLine l :: Ev.writeOut (p ++ ['\n']) :: r.evs,
       (p ++ ['\n']) ++ r.written,
       r.preds.map (fun ps => p :: ps)⟩

/-- The output-file content produced by writing each prediction followed by a
newline, in order. -/
def joinLines : List Str → Str
  | [] => []
  | p :: ps => (p ++ ['\n']) ++ joinLines ps

/-- Observable outcome of one run of the script: the event trace, the final
content of the file at `outputs_path` (`none` would mean it was never
created), the final `(total, correct)` pair (`none` when the run terminated
with an uncaught exception), and the printed `(correct, total, percentage)`
line (`none` when nothing was printed). -/
structure RunOut where
  trace : List Ev
  outFile : Option Str
  result : Option (Nat × Nat)
  printed : Option (Nat × Nat × ℚ)

/-- The whole script (source lines 6-22): open the output file in write mode
(creating it or truncating any previous content `fileBefore`), run the loop,
call `evaluate_places` still inside the `with` block, close the file on
leaving the block (also when the loop raised), and finally print
`correct/total*100` guarded by `if total > 0`. -/
def run_model (stoi : Char → Option Nat) (itos : Nat → Option Char)
    (sample : List Nat → Nat → Bool → List Nat) (corpus : List Str)
    (fileBefore : Option Str) : RunOut :=
  match (loopRun stoi itos sample corpus).preds with
  | none =>
    ⟨Ev.openOut :: ((loopRun stoi itos sample corpus).evs ++ [Ev.closeOut]),
     some (loopRun stoi itos sample corpus).written, none, none⟩
  | some preds =>
    ⟨Ev.openOut :: ((loopRun stoi itos sample corpus).evs ++
        ([Ev.score, Ev.closeOut] ++
          (if 0 < (evaluate_places corpus preds).1 then
            [Ev.print (evaluate_places corpus preds).2 (evaluate_places corpus preds).1]
          else []))),
     some (loopRun stoi itos sample corpus).written,
     some (evaluate_places corpus preds),
     if 0 < (evaluate_places corpus preds).1 then
       some ((evaluate_places corpus preds).2, (evaluate_places corpus preds).1,
         ((evaluate_places corpus preds).2 : ℚ) / ((evaluate_places corpus preds).1 : ℚ) * 100)
     else none⟩

/-- File-system state visible to the baseline variant: the evaluation corpus. -/
structure FS where
  corpus : List Str

/-- Modelled from the spec: the baseline variant reads the corpus, computes
the counts and prints; it opens no file for writing, so the file-system state
is returned unchanged next to the computed result. -/
def run_baseline_fs (w : FS) : FS × Option (Nat × Nat) :=
  (w, run_baseline w.corpus)

/-- Total tokenizer table sending every character to its code point. -/
def stoiId (c : Char) : Option Nat := some c.toNat

/-- Total decoding table sending a code point back to its character. -/
def itosId (n : Nat) : Option Char := some (Char.ofNat n)

/-- Tokenizer table with no entry for the character 'Z'. -/
def stoiNoZ (c : Char) : Option Nat := if c = 'Z' then none else some c.toNat

/-- Sampler stub that echoes its prompt and generates nothing. -/
def sampleEcho (enc : List Nat) (_ : Nat) (_ : Bool) : List Nat := enc

/-- Sampler stub that returns no tokens at all. -/
def sampleEmpty (_ : List Nat) (_ : Nat) (_ : Bool) : List Nat := []

/-- Sampler stub for the spec's order-preservation scenario: it echoes the
prompt and appends the encoding of "Paris" for the prompt "Alice⁇" and of
"London" otherwise. -/
def stubSample (enc : List Nat) (_ : Nat) (_ : Bool) : List Nat :=
  if enc = "Alice⁇".data.map Char.toNat then enc ++ "Paris".data.map Char.toNat
  else enc ++ "London".data.map Char.toNat

/-- The spec's order-preservation scenario corpus. -/
def corpus0 : List Str := ["Alice\tParis".data, "Bob\tLondon".data]

theorem pySplit_ne_nil (sep : Char) (l : Str) : pySplit sep l ≠ [] := by
  cases l with
  | nil => simp [pySplit]
  | cons c cs =>
    simp only [pySplit]
    split <;> split <;> simp

theorem pySplit_zero (l : Str) : (pySplit '\t' l).get? 0 = some (col0 l) := by
  induction l with
  | nil => rfl
  | cons c cs ih =>
    simp only [pySplit, col0]
    cases h : pySplit '\t' cs with
    | nil => exact absurd h (pySplit_ne_nil '\t' cs)
    | cons s ss =>
      rw [h] at ih
      simp only [List.get?] at ih
      by_cases hc : c = '\t' <;> simp [hc, Option.some_inj.mp ih]

theorem pySplit_of_not_mem {sep : Char} {l : Str} (h : sep ∉ l) : pySplit sep l = [l] := by
  induction l with
  | nil => rfl
  | cons c cs ih =>
    have hc : c ≠ sep := fun he => h (he ▸ List.mem_cons_self c cs)
    have hcs : sep ∉ cs := fun hm => h (List.mem_cons_of_mem c hm)
    simp only [pySplit, ih hcs]
    simp [hc]

theorem mapOpt_length {f : α → Option β} : ∀ {l : List α} {l' : List β},
    mapOpt f l = some l' → l'.length = l.length := by
  intro l
  induction l with
  | nil => intro l' h; simp only [mapOpt, Option.some_inj] at h; simp [← h]
  | cons a as ih =>
    intro l' h
    simp only [mapOpt] at h
    cases hf : f a with
    | none => rw [hf] at h; exact absurd h (by simp)
    | some b =>
      rw [hf] at h
      cases hm : mapOpt f as with
      | none => rw [hm] at h; exact absurd h (by simp)
      | some bs =>
        rw [hm] at h
        simp only [Option.some_inj] at h
        simp [← h, ih hm]

theorem mapOpt_none_of_mem {f : α → Option β} {a : α} {l : List α}
    (ha : a ∈ l) (hf : f a = none) : mapOpt f l = none := by
  induction l with
  | nil => cases ha
  | cons b bs ih =>
    rcases List.mem_cons.mp ha with h | h
    · subst h; simp [mapOpt, hf]
    · simp only [mapOpt]
      cases hb : f b with
      | none => rfl
      | some v => rw [ih h]

theorem loopRun_preds (stoi : Char → Option Nat) (itos : Nat → Option Char)
    (sample : List Nat → Nat → Bool → List Nat) (ls : List Str) :
    (loopRun stoi itos sample ls).preds = mapOpt (processLine stoi itos sample) ls := by
  induction ls with
  | nil => rfl
  | cons l ls ih =>
    simp only [loopRun, mapOpt]
    cases h : processLine stoi itos sample l with
    | none => rfl
    | some p =>
      simp only []
      rw [ih]
      cases mapOpt (processLine stoi itos sample) ls <;> rfl

theorem loopRun_written_eq (stoi : Char → Option Nat) (itos : Nat → Option Char)
    (sample : List Nat → Nat → Bool → List Nat) :
    ∀ {ls : List Str} {ps : List Str},
    mapOpt (processLine stoi itos sample) ls = some ps →
    (loopRun stoi itos sample ls).written = joinLines ps := by
  intro ls
  induction ls with
  | nil =>
    intro ps h
    simp only [mapOpt, Option.some_inj] at h
    simp [loopRun, ← h, joinLines]
  | cons l ls ih =>
    intro ps h
    simp only [mapOpt] at h
    cases hl : processLine stoi itos sample l with
    | none => rw [hl] at h; exact absurd h (by simp)
    | some p =>
      rw [hl] at h
      cases hm : mapOpt (processLine stoi itos sample) ls with
      | none => rw [hm] at h; exact absurd h (by simp)
      | some qs =>
        rw [hm] at h
        simp only [Option.some_inj] at h
        simp [loopRun, hl, ← h, joinLines, ih hm]

theorem loopRun_evs_loop (stoi : Char → Option Nat) (itos : Nat → Option Char)
    (sample : List Nat → Nat → Bool → List Nat) :
    ∀ (ls : List Str), ∀ e ∈ (loopRun stoi itos sample ls).evs, loopEv e = true := by
  intro ls
  induction ls with
  | nil => intro e he; simp [loopRun] at he
  | cons l ls ih =>
    intro e he
    cases hl : processLine stoi itos sample l with
    | none =>
      simp [loopRun, hl] at he
      simp [he, loopEv]
    | some p =>
      simp only [loopRun, hl, List.mem_cons] at he
      rcases he with h | h | h
      · simp [h, loopEv]
      · simp [h, loopEv]
      · exact ih e h

theorem countCorrect_all : ∀ {l : List (Str × Str)},
    (∀ lp ∈ l, (pySplit '\t' lp.1).get? 1 = some lp.2) → countCorrect l = l.length := by
  intro l
  induction l with
  | nil => intro _; rfl
  | cons lp rest ih =>
    intro h
    have h1 := h lp (List.mem_cons_self lp rest)
    have h2 := ih (fun x hx => h x (List.mem_cons_of_mem lp hx))
    rw [List.get?_eq_getElem?] at h1
    simp [countCorrect, h1, h2]

theorem takeU_append_all {p : Ev → Bool} : ∀ {l r : List Ev},
    (∀ e ∈ l, p e = true) → takeU p (l ++ r) = l ++ takeU p r := by
  intro l
  induction l with
  | nil => intro r _; rfl
  | cons a as ih =>
    intro r h
    have ha := h a (List.mem_cons_self a as)
    simp [takeU, ha, ih (fun e he => h e (List.mem_cons_of_mem a he))]

theorem dropU_append_all {p : Ev → Bool} : ∀ {l r : List Ev},
    (∀ e ∈ l, p e = true) → dropU p (l ++ r) = dropU p r := by
  intro l
  induction l with
  | nil => intro r _; rfl
  | cons a as ih =>
    intro r h
    have ha := h a (List.mem_cons_self a as)
    simp [dropU, ha, ih (fun e he => h e (List.mem_cons_of_mem a he))]

theorem notClose_of_loopEv {e : Ev} (h : loopEv e = true) : notClose e = true := by
  cases e <;> simp [loopEv] at h ⊢ <;> rfl

theorem loopOrScoreEv_of_loopEv {e : Ev} (h : loopEv e = true) : loopOrScoreEv e = true := by
  cases e <;> simp_all [loopEv, loopOrScoreEv]

theorem run_model_result_none (stoi : Char → Option Nat) (itos : Nat → Option Char)
    (sample : List Nat → Nat → Bool → List Nat) (corpus : List Str)
    (f0 : Option Str) {line : Str} (hmem : line ∈ corpus)
    (hfail : processLine stoi itos sample line = none) :
    (run_model stoi itos sample corpus f0).result = none := by
  have hp : (loopRun stoi itos sample corpus).preds = none := by
    rw [loopRun_preds]
    exact mapOpt_none_of_mem hmem hfail
  unfold run_model
  rw [hp]

theorem processLine_eq (stoi : Char → Option Nat) (itos : Nat → Option Char)
    (sample : List Nat → Nat → Bool → List Nat) (line : Str) :
    processLine stoi itos sample line =
      match mapOpt stoi (col0 line ++ ['⁇']) with
      | none => none
      | some ix =>
        match mapOpt itos (sample ix 32 false) with
        | none => none
        | some completion => (pySplit '⁇' completion).get? 1 := by
  unfold processLine
  rw [pySplit_zero]

theorem run_model_eq_none (stoi : Char → Option Nat) (itos : Nat → Option Char)
    (sample : List Nat → Nat → Bool → List Nat) (corpus : List Str) (f0 : Option Str)
    (hp : (loopRun stoi itos sample corpus).preds = none) :
    run_model stoi itos sample corpus f0 =
      ⟨Ev.openOut :: ((loopRun stoi itos sample corpus).evs ++ [Ev.closeOut]),
       some (loopRun stoi itos sample corpus).written, none, none⟩ := by
  unfold run_model
  rw [hp]

theorem run_model_eq_some (stoi : Char → Option Nat) (itos : Nat → Option Char)
    (sample : List Nat → Nat → Bool → List Nat) (corpus : List Str) (f0 : Option Str)
    (preds : List Str) (hp : (loopRun stoi itos sample corpus).preds = some preds) :
    run_model stoi itos sample corpus f0 =
      ⟨Ev.openOut :: ((loopRun stoi itos sample corpus).evs ++
          ([Ev.score, Ev.closeOut] ++
            (if 0 < (evaluate_places corpus preds).1 then
              [Ev.print (evaluate_places corpus preds).2 (evaluate_places corpus preds).1]
            else []))),
       some (loopRun stoi itos sample corpus).written,
       some (evaluate_places corpus preds),
       if 0 < (evaluate_places corpus preds).1 then
         some ((evaluate_places corpus preds).2, (evaluate_places corpus preds).1,
           ((evaluate_places corpus preds).2 : ℚ) / ((evaluate_places corpus preds).1 : ℚ) * 100)
       else none⟩ := by
  unfold run_model
  rw [hp]

theorem dropU_notOpen_cons (tr : List Ev) : dropU notOpen (Ev.openOut :: tr) = Ev.openOut :: tr := by
  simp [dropU, notOpen]

theorem betweenOpenClose_shape (evs rest : List Ev) (h : ∀ e ∈ evs, notClose e = true) :
    betweenOpenClose (Ev.openOut :: (evs ++ rest)) = evs ++ takeU notClose rest := by
  unfold betweenOpenClose
  rw [dropU_notOpen_cons]
  simp only [List.drop_succ_cons, List.drop_zero]
  exact takeU_append_all h

theorem afterClose_shape (evs rest : List Ev) (h : ∀ e ∈ evs, notClose e = true) :
    afterClose (Ev.openOut :: (evs ++ rest)) = (dropU notClose rest).drop 1 := by
  unfold afterClose
  rw [show dropU notClose (Ev.openOut :: (evs ++ rest)) = dropU notClose (evs ++ rest) from by
    simp [dropU, notClose]]
  rw [dropU_append_all h]

/-- Claim C1: for every dataset of N record lines, each having a second
tab-separated field, the baseline evaluation reports total = N and
correct = the number of lines whose true label (the second tab-separated
field) is exactly "London"; the predicted label for every record is the
literal string "London" and a record counts as correct exactly when that
prediction equals the true label by exact string equality. -/
theorem C1_baseline_counts (lines : List Str)
    (h : ∀ l ∈ lines, ((pySplit '\t' l).get? 1).isSome = true) :
    run_baseline lines = some (lines.length, countLondon lines) := by
  induction lines with
  | nil => rfl
  | cons l ls ih =>
    obtain ⟨t, ht⟩ := Option.isSome_iff_exists.mp (h l (List.mem_cons_self l ls))
    have ihs := ih (fun x hx => h x (List.mem_cons_of_mem l hx))
    rw [List.get?_eq_getElem?] at ht
    by_cases hT : t = ("London".data : Str)
    · simp [run_baseline, countLondon, ht, ihs, hT, List.get?_eq_getElem?]
    · simp [run_baseline, countLondon, ht, ihs, hT, Ne.symm hT, List.get?_eq_getElem?]

/-- Witness for C1: a concrete three-line dataset of which two lines have
true label "London" evaluates to total = 3, correct = 2. -/
theorem C1_baseline_counts_witness :
    run_baseline ["A\tLondon".data, "B\tParis".data, "C\tLondon".data] = some (3, 2) :=
  (C1_baseline_counts ["A\tLondon".data, "B\tParis".data, "C\tLondon".data]
    (by decide)).trans (by decide)

/-- Claim C2: for every input line the model path takes the text before the
first tab, appends exactly one sentinel '⁇', encodes it character by
character through `stoi`, calls the sampler requesting up to 32 tokens with
greedy (non-random) decoding, decodes the result through `itos`, splits the
decoded text on the sentinel and takes the segment at index 1 of the split
as the prediction: the source pipeline equals this spec-side description. -/
theorem C2_pipeline_matches_spec (stoi : Char → Option Nat) (itos : Nat → Option Char)
    (sample : List Nat → Nat → Bool → List Nat) (line : Str) :
    processLine stoi itos sample line = processLineSpec stoi itos sample line := by
  rw [processLine_eq]
  rfl

/-- Claim C3: on an empty input corpus the run reports total = 0 and
correct = 0 (`result = some (0, 0)`, so no exception is raised), and the
guarded print is skipped (`printed = none`), so the division by `total` is
never performed. -/
theorem C3_empty_corpus (stoi : Char → Option Nat) (itos : Nat → Option Char)
    (sample : List Nat → Nat → Bool → List Nat) (f0 : Option Str) :
    run_model stoi itos sample ([] : List Str) f0 =
      ⟨[Ev.openOut, Ev.score, Ev.closeOut], some [], some (0, 0), none⟩ := rfl

/-- Claim C4: for every corpus whose lines all process successfully, the run
writes exactly one newline-terminated prediction per input line, in input
order (the output file is `joinLines preds` where `preds` is the per-line
pipeline output, in order), and passes the same ordered list to the scorer;
and when additionally the predictions equal the true labels in order, the
scoring yields total = N and correct = N. -/
theorem C4_order_preservation (stoi : Char → Option Nat) (itos : Nat → Option Char)
    (sample : List Nat → Nat → Bool → List Nat) (corpus : List Str) (f0 : Option Str)
    (preds : List Str)
    (h : mapOpt (processLine stoi itos sample) corpus = some preds) :
    preds.length = corpus.length ∧
    (run_model stoi itos sample corpus f0).outFile = some (joinLines preds) ∧
    (run_model stoi itos sample corpus f0).result = some (evaluate_places corpus preds) ∧
    ((∀ lp ∈ corpus.zip preds, (pySplit '\t' lp.1).get? 1 = some lp.2) →
      evaluate_places corpus preds = (corpus.length, corpus.length)) := by
  have hp : (loopRun stoi itos sample corpus).preds = some preds := by
    rw [loopRun_preds]; exact h
  have hlen := mapOpt_length h
  refine ⟨hlen, ?_, ?_, ?_⟩
  · unfold run_model
    rw [hp]
    simp [loopRun_written_eq stoi itos sample h]
  · unfold run_model
    rw [hp]
  · intro hlab
    unfold evaluate_places
    rw [countCorrect_all hlab, List.length_zip, hlen, min_self]

/-- Witness for C4: the spec's scenario, corpus `["Alice\tParis",
"Bob\tLondon"]` with a generation stub producing "Paris" then "London",
writes both predictions in order and scores correct = 2 out of total = 2. -/
theorem C4_order_preservation_witness :
    (["Paris".data, "London".data] : List Str).length = corpus0.length ∧
    (run_model stoiId itosId stubSample corpus0 none).outFile =
      some (joinLines ["Paris".data, "London".data]) ∧
    (run_model stoiId itosId stubSample corpus0 none).result =
      some (evaluate_places corpus0 ["Paris".data, "London".data]) ∧
    evaluate_places corpus0 ["Paris".data, "London".data] = (corpus0.length, corpus0.length) := by
  obtain ⟨a, b, c, d⟩ := C4_order_preservation stoiId itosId stubSample corpus0 none
    ["Paris".data, "London".data] (by decide)
  exact ⟨a, b, c, d (by decide)⟩

/-- Claim C5 counterexample: a concrete line with no tab character is not
fatal: `line.split('\t')[0]` is index 0 of the split, which always exists
(it is the whole line when there is no tab), and with a total vocabulary the
pipeline completes normally, producing a prediction; no error is raised. -/
theorem C5_no_tab_not_fatal :
    ('\t' ∉ "BobLondon".data) ∧
    processLine stoiId itosId stubSample "BobLondon".data = some ("London".data) := by decide

/-- Claim C5 amended: in the model path a line lacking a tab character is
not fatal at the field extraction: `split('\t')[0]` succeeds and yields the
entire line (the model path never reads a second field of the input line). -/
theorem C5_no_tab_extracts_whole_line (line : Str) (h : '\t' ∉ line) :
    (pySplit '\t' line).get? 0 = some line := by
  rw [pySplit_of_not_mem h]; rfl

/-- Witness for the amended C5 at the concrete tab-less line "BobLondon". -/
theorem C5_no_tab_extracts_whole_line_witness :
    (pySplit '\t' "BobLondon".data).get? 0 = some ("BobLondon".data) :=
  C5_no_tab_extracts_whole_line "BobLondon".data (by decide)

/-- Claim C6 counterexample: a concrete line containing a character ('Z')
with no entry in the tokenizer's `stoi` table is processed without any
error, because the character sits after the first tab and only the text
before the first tab is ever encoded. -/
theorem C6_unknown_char_after_tab_ok :
    ('Z' ∈ "Bob\tZurich".data) ∧ stoiNoZ 'Z' = none ∧
    processLine stoiNoZ itosId sampleEcho "Bob\tZurich".data = some [] := by decide

/-- Claim C6 amended: for every input line whose column 0 (the text before
the first tab, the only text that is encoded) contains a character with no
entry in `stoi`, encoding raises an uncaught lookup error: the line's
processing returns `none` and the whole run terminates with `result = none`;
there is no recovery. -/
theorem C6_unknown_char_in_col0_fatal (stoi : Char → Option Nat) (itos : Nat → Option Char)
    (sample : List Nat → Nat → Bool → List Nat) (corpus : List Str) (f0 : Option Str)
    (line : Str) (c : Char)
    (h1 : c ∈ col0 line) (h2 : stoi c = none) (h3 : line ∈ corpus) :
    processLine stoi itos sample line = none ∧
    (run_model stoi itos sample corpus f0).result = none := by
  have henc : mapOpt stoi (col0 line ++ ['⁇']) = none :=
    mapOpt_none_of_mem (List.mem_append_left _ h1) h2
  have hpl : processLine stoi itos sample line = none := by
    rw [processLine_eq, henc]
  exact ⟨hpl, run_model_result_none stoi itos sample corpus f0 h3 hpl⟩

/-- Witness for the amended C6: the line "Zurich\tq" has the unknown
character 'Z' in column 0, so its processing and the whole run fail. -/
theorem C6_unknown_char_in_col0_fatal_witness :
    processLine stoiNoZ itosId sampleEcho "Zurich\tq".data = none ∧
    (run_model stoiNoZ itosId sampleEcho ["Zurich\tq".data] none).result = none :=
  C6_unknown_char_in_col0_fatal stoiNoZ itosId sampleEcho ["Zurich\tq".data] none
    "Zurich\tq".data 'Z' (by decide) (by decide) (by decide)

/-- Claim C7 counterexample: it is not true that only loop statements
execute while the output file handle is open: on an empty corpus the events
between the open and the close are exactly the scorer call, which is not a
loop event (the `evaluate_places` call on source line 19 sits inside the
`with` block). -/
theorem C7_score_runs_while_open :
    betweenOpenClose (run_model stoiId itosId sampleEcho ([] : List Str) none).trace =
      [Ev.score] ∧
    loopEv Ev.score = false ∧
    ((betweenOpenClose
        (run_model stoiId itosId sampleEcho ([] : List Str) none).trace).all loopEv) =
      false := by decide

/-- Claim C7 amended: the output file handle is opened first and held open
for the whole `with` block, which contains the prediction loop and the
scoring call; it is guaranteed closed afterward, including when an error is
raised mid-loop, and after the close only the final print executes. -/
theorem C7_handle_scope (stoi : Char → Option Nat) (itos : Nat → Option Char)
    (sample : List Nat → Nat → Bool → List Nat) (corpus : List Str) (f0 : Option Str) :
    (run_model stoi itos sample corpus f0).trace.head? = some Ev.openOut ∧
    Ev.closeOut ∈ (run_model stoi itos sample corpus f0).trace ∧
    ((betweenOpenClose (run_model stoi itos sample corpus f0).trace).all loopOrScoreEv) =
      true ∧
    ((afterClose (run_model stoi itos sample corpus f0).trace).all isPrintEv) = true := by
  have hclose : ∀ e ∈ (loopRun stoi itos sample corpus).evs, notClose e = true :=
    fun e he => notClose_of_loopEv (loopRun_evs_loop stoi itos sample corpus e he)
  have hloop : ∀ e ∈ (loopRun stoi itos sample corpus).evs, loopOrScoreEv e = true :=
    fun e he => loopOrScoreEv_of_loopEv (loopRun_evs_loop stoi itos sample corpus e he)
  cases hp : (loopRun stoi itos sample corpus).preds with
  | none =>
    rw [run_model_eq_none stoi itos sample corpus f0 hp]
    refine ⟨rfl, by simp, ?_, ?_⟩
    · rw [show (⟨Ev.openOut :: ((loopRun stoi itos sample corpus).evs ++ [Ev.closeOut]),
          some (loopRun stoi itos sample corpus).written, none, none⟩ : RunOut).trace =
          Ev.openOut :: ((loopRun stoi itos sample corpus).evs ++ [Ev.closeOut]) from rfl]
      rw [betweenOpenClose_shape _ _ hclose]
      rw [show takeU notClose [Ev.closeOut] = [] from rfl, List.append_nil]
      exact List.all_eq_true.mpr hloop
    · rw [show (⟨Ev.openOut :: ((loopRun stoi itos sample corpus).evs ++ [Ev.closeOut]),
          some (loopRun stoi itos sample corpus).written, none, none⟩ : RunOut).trace =
          Ev.openOut :: ((loopRun stoi itos sample corpus).evs ++ [Ev.closeOut]) from rfl]
      rw [afterClose_shape _ _ hclose]
      rfl
  | some preds =>
    rw [run_model_eq_some stoi itos sample corpus f0 preds hp]
    refine ⟨rfl, by simp, ?_, ?_⟩
    · show (betweenOpenClose (Ev.openOut :: ((loopRun stoi itos sample corpus).evs ++
          ([Ev.score, Ev.closeOut] ++
            (if 0 < (evaluate_places corpus preds).1 then
              [Ev.print (evaluate_places corpus preds).2 (evaluate_places corpus preds).1]
            else []))))).all loopOrScoreEv = true
      rw [betweenOpenClose_shape _ _ hclose]
      rw [show takeU notClose ([Ev.score, Ev.closeOut] ++
            (if 0 < (evaluate_places corpus preds).1 then
              [Ev.print (evaluate_places corpus preds).2 (evaluate_places corpus preds).1]
            else [])) = [Ev.score] from rfl]
      rw [List.all_append]
      exact (Bool.and_eq_true _ _).mpr ⟨List.all_eq_true.mpr hloop, rfl⟩
    · show (afterClose (Ev.openOut :: ((loopRun stoi itos sample corpus).evs ++
          ([Ev.score, Ev.closeOut] ++
            (if 0 < (evaluate_places corpus preds).1 then
              [Ev.print (evaluate_places corpus preds).2 (evaluate_places corpus preds).1]
            else []))))).all isPrintEv = true
      rw [afterClose_shape _ _ hclose]
      rw [show dropU notClose ([Ev.score, Ev.closeOut] ++
            (if 0 < (evaluate_places corpus preds).1 then
              [Ev.print (evaluate_places corpus preds).2 (evaluate_places corpus preds).1]
            else [])) = Ev.closeOut ::
            (if 0 < (evaluate_places corpus preds).1 then
              [Ev.print (evaluate_places corpus preds).2 (evaluate_places corpus preds).1]
            else []) from rfl]
      split <;> rfl

/-- Claim C8: running the baseline evaluator twice on the same file yields
identical results: the evaluator does not modify the file-system state, so
the second run, started from the state the first run left behind, returns
the same (total, correct) pair. -/
theorem C8_baseline_idempotent (w : FS) :
    (run_baseline_fs (run_baseline_fs w).1).2 = (run_baseline_fs w).2 ∧
    (run_baseline_fs w).1 = w :=
  ⟨rfl, rfl⟩

/-- Claim C9: for every input line, if the decoded sample text contains no
sentinel '⁇', then splitting on it yields a single segment, taking index 1
raises an uncaught IndexError (the line's processing returns `none`), and
the run terminates with `result = none`. -/
theorem C9_missing_sentinel_fatal (stoi : Char → Option Nat) (itos : Nat → Option Char)
    (sample : List Nat → Nat → Bool → List Nat) (corpus : List Str) (f0 : Option Str)
    (line : Str) (ix : List Nat) (completion : Str)
    (h1 : mapOpt stoi (col0 line ++ ['⁇']) = some ix)
    (h2 : mapOpt itos (sample ix 32 false) = some completion)
    (h3 : '⁇' ∉ completion)
    (h4 : line ∈ corpus) :
    processLine stoi itos sample line = none ∧
    (run_model stoi itos sample corpus f0).result = none := by
  have hpl : processLine stoi itos sample line = none := by
    rw [processLine_eq, h1]
    show (match mapOpt itos (sample ix 32 false) with
          | none => none
          | some completion => (pySplit '⁇' completion).get? 1) = none
    rw [h2]
    show (pySplit '⁇' completion).get? 1 = none
    rw [pySplit_of_not_mem h3]
    rfl
  exact ⟨hpl, run_model_result_none stoi itos sample corpus f0 h4 hpl⟩

/-- Witness for C9: with a sampler that returns no tokens the decoded text
is empty, contains no sentinel, and the concrete run terminates fatally. -/
theorem C9_missing_sentinel_fatal_witness :
    processLine stoiId itosId sampleEmpty "Bob\tLondon".data = none ∧
    (run_model stoiId itosId sampleEmpty ["Bob\tLondon".data] none).result = none :=
  C9_missing_sentinel_fatal stoiId itosId sampleEmpty ["Bob\tLondon".data] none
    "Bob\tLondon".data ("Bob⁇".data.map Char.toNat) [] (by decide) (by decide)
    (by decide) (by decide)

/-- Claim C10: the output file is opened in write mode before the first
input line is read (the trace starts with the open event), the resulting
file content does not depend on whatever was at `outputs_path` before the
run (create-or-truncate), and on an empty corpus the file is still created
with empty content even though zero predictions are written. -/
theorem C10_output_file_created (stoi : Char → Option Nat) (itos : Nat → Option Char)
    (sample : List Nat → Nat → Bool → List Nat) (corpus : List Str) (f0 f1 : Option Str) :
    (run_model stoi itos sample corpus f0).trace.head? = some Ev.openOut ∧
    (run_model stoi itos sample corpus f0).outFile =
      (run_model stoi itos sample corpus f1).outFile ∧
    (run_model stoi itos sample ([] : List Str) f0).outFile = some ([] : Str) := by
  refine ⟨?_, rfl, rfl⟩
  cases hp : (loopRun stoi itos sample corpus).preds with
  | none => rw [run_model_eq_none stoi itos sample corpus f0 hp]; rfl
  | some preds => rw [run_model_eq_some stoi itos sample corpus f0 preds hp]; rfl

end London
